import Mathlib

/-!
Verification development for the real-time meeting intelligence backend.

The definitions below are a shallow embedding of the Python sources:
  * `src/backend/context_manager.py` (`Utterance`, `ConversationBuffer`)
  * `src/backend/llm_generator.py`   (`SuggestionGenerator._parse_suggestions`,
                                      `SuggestionGenerator.generate_sync`)
  * `src/backend/main.py`            (`SalesAssistant._generate_suggestions`,
                                      speaker-label mapping, single-flight gate)
  * `src/backend/websocket_server.py` (`WebSocketServer.broadcast`)

Modelling conventions: wall-clock instants (`datetime.now()`) become explicit
`now : Int` arguments measured in seconds; Python exceptions of the external
collaborator become an `Except` value; Python string `.strip()` becomes
`pyStrip` (ASCII whitespace, the subset relevant to all inputs considered).
-/

namespace RTSA

/-- ASCII whitespace, the characters Python's `str.strip()` and the regex
class `\s` remove on the inputs of interest (space, tab, newline, carriage
return, vertical tab, form feed). -/
def isPySpace (c : Char) : Bool :=
  c == ' ' || c == '\t' || c == '\n' || c == '\r' ||
  c == Char.ofNat 11 || c == Char.ofNat 12

/-- Python `str.strip()` on a character list: drop whitespace on both ends. -/
def pyStripChars (s : List Char) : List Char :=
  ((s.dropWhile isPySpace).reverse.dropWhile isPySpace).reverse

/-- Python `str.strip()` on a string. -/
def pyStrip (s : String) : String :=
  String.mk (pyStripChars s.data)

/-- Python `str.title()` restricted to alphabetic casing: uppercase a letter
not preceded by a letter, lowercase a letter preceded by one.  Used for the
`f"{u.speaker.title()}: {u.text}"` rendering in `get_context_string`. -/
def pyTitleChars : Bool → List Char → List Char
  | _, [] => []
  | prevCased, c :: rest =>
    let cased := c.isAlpha
    let c2 := if cased then (if prevCased then c.toLower else c.toUpper) else c
    c2 :: pyTitleChars cased rest

/-- Python `str.title()` on a string. -/
def pyTitle (s : String) : String :=
  String.mk (pyTitleChars false s.data)

/-- Python `"\n".join(lines)`. -/
def joinLines : List String → String
  | [] => ""
  | [s] => s
  | s :: rest => s ++ "\n" ++ joinLines rest

/-- `Utterance` dataclass of `context_manager.py`: one attributed span of
speech.  The capture timestamp (`datetime.now()` at construction) is modelled
as an integer number of seconds. -/
structure Utterance where
  speaker : String
  text : String
  timestamp : Int
  is_final : Bool
deriving DecidableEq, Repr

/-- `ConversationBuffer` state of `context_manager.py` (its `__init__`
fields): the deque of final utterances, the retention window
`max_duration`, the `suggestion_cooldown`, the optional
`last_suggestion_time`, and the optional `_pending_interim` utterance. -/
structure ConversationBuffer where
  utterances : List Utterance
  max_duration : Int
  suggestion_cooldown : Int
  last_suggestion_time : Option Int
  pending_interim : Option Utterance
deriving DecidableEq, Repr

/-- `ConversationBuffer.__init__`: empty history, no last trigger, no
pending interim. -/
def emptyBuffer (max_duration_seconds : Int) (suggestion_cooldown : Int) :
    ConversationBuffer :=
  { utterances := []
    max_duration := max_duration_seconds
    suggestion_cooldown := suggestion_cooldown
    last_suggestion_time := none
    pending_interim := none }

/-- Loop body of `ConversationBuffer._prune_old`: pop utterances from the
front while their timestamp is strictly below the cutoff. -/
def pruneFront (cutoff : Int) : List Utterance → List Utterance
  | [] => []
  | u :: rest => if u.timestamp < cutoff then pruneFront cutoff rest else u :: rest

/-- `ConversationBuffer._prune_old`: remove utterances older than
`now - max_duration` from the front of the deque. -/
def prune_old (b : ConversationBuffer) (now : Int) : ConversationBuffer :=
  { b with utterances := pruneFront (now - b.max_duration) b.utterances }

/-- `ConversationBuffer.add`: a final utterance clears the pending interim,
is appended, and old entries are pruned; a non-final utterance replaces the
pending interim and leaves the history untouched. -/
def add (b : ConversationBuffer) (u : Utterance) (now : Int) : ConversationBuffer :=
  if u.is_final then
    prune_old { b with pending_interim := none, utterances := b.utterances ++ [u] } now
  else
    { b with pending_interim := some u }

/-- Speaker-label mapping of `ConversationBuffer.add_transcript` line 78:
`"prospect" if speaker == 0 else "salesperson"`. -/
def speakerLabelBuffer (speaker : Nat) : String :=
  if speaker = 0 then "prospect" else "salesperson"

/-- `ConversationBuffer.add_transcript`: build an `Utterance` from the raw
fragment (label from the diarization id, text stripped, timestamp now) and
`add` it. -/
def add_transcript (b : ConversationBuffer) (text : String) (speaker : Nat)
    (is_final : Bool) (now : Int) : ConversationBuffer :=
  add b
    { speaker := speakerLabelBuffer speaker
      text := pyStrip text
      timestamp := now
      is_final := is_final } now

/-- `ConversationBuffer.get_context_string`: render the final utterances
(the last `n` of them when `last_n` is truthy — note Python's `if last_n:`
treats `0` like `None`) as `"<Speaker.title()>: <text>"` lines. -/
def get_context_string (b : ConversationBuffer) (last_n : Option Nat) : String :=
  let us := b.utterances.filter (fun u => u.is_final)
  let us := match last_n with
    | none => us
    | some n => if n = 0 then us else us.drop (us.length - n)
  joinLines (us.map (fun u => pyTitle u.speaker ++ ": " ++ u.text))

/-- `ConversationBuffer.get_last_prospect_statement`: newest-first scan for a
final prospect utterance. -/
def get_last_prospect_statement (b : ConversationBuffer) : Option String :=
  (b.utterances.reverse.find? (fun u => u.speaker == "prospect" && u.is_final)).map
    (fun u => u.text)

/-- Cooldown test of `ConversationBuffer.should_trigger_ai` lines 145-148:
true when a last suggestion time is set and less than `suggestion_cooldown`
seconds have elapsed. -/
def cooldown_active (b : ConversationBuffer) (now : Int) : Bool :=
  match b.last_suggestion_time with
  | some t => decide (now - t < b.suggestion_cooldown)
  | none => false

/-- `ConversationBuffer.should_trigger_ai`: false on empty history, during
the cooldown, when the newest entry is not a final prospect utterance, or
when its text is shorter than 10 characters; true otherwise. -/
def should_trigger_ai (b : ConversationBuffer) (now : Int) : Bool :=
  if b.utterances.isEmpty then false
  else if cooldown_active b now then false
  else
    match b.utterances.getLast? with
    | none => false
    | some last =>
      if last.speaker ≠ "prospect" ∨ last.is_final = false then false
      else if last.text.length < 10 then false
      else true

/-- `ConversationBuffer.mark_suggestion_sent`: record the trigger time. -/
def mark_suggestion_sent (b : ConversationBuffer) (now : Int) : ConversationBuffer :=
  { b with last_suggestion_time := some now }

/-- One inbound transcript fragment together with its arrival instant
(`TranscriptResult` of `transcription.py` as consumed by
`SalesAssistant._on_transcript`). -/
structure TranscriptFragment where
  text : String
  speaker : Nat
  is_final : Bool
  now : Int
deriving DecidableEq, Repr

/-- Ingest a sequence of fragments through
`ConversationBuffer.add_transcript` in arrival order. -/
def ingestAll (b : ConversationBuffer) (fs : List TranscriptFragment) :
    ConversationBuffer :=
  fs.foldl (fun acc f => add_transcript acc f.text f.speaker f.is_final f.now) b

/-- Speaker-label mapping of `SalesAssistant._process_transcript` line 241
(`main.py`), duplicated from the buffer-side mapping. -/
def speakerLabelBroadcast (speaker : Nat) : String :=
  if speaker = 0 then "prospect" else "salesperson"

/-- Python `response.split("\n")`: split a character list at newline
characters (so `"".split("\n") == [""]`). -/
def splitLines : List Char → List (List Char)
  | [] => [[]]
  | c :: rest =>
    let r := splitLines rest
    if c == '\n' then [] :: r
    else
      match r with
      | [] => [[c]]
      | l :: ls => (c :: l) :: ls

/-- Marker characters of the ordinal regex `[.\):\-]` in
`SuggestionGenerator._parse_suggestions`: a dot, closing parenthesis,
colon or hyphen must follow the digits immediately. -/
def markerChar (c : Char) : Bool :=
  c == '.' || c == ')' || c == ':' || c == '-'

/-- The double-quote character. -/
def dquote : Char := Char.ofNat 34

/-- The single-quote character. -/
def squote : Char := Char.ofNat 39

/-- Quote characters removed by `suggestion.strip("\x22'")`. -/
def isQuoteChar (c : Char) : Bool :=
  c == dquote || c == squote

/-- Regex match `re.match(r"^\s*(\d+)[.\):\-]\s*(.+)$", line)` of
`_parse_suggestions`, returning capture group 2.  The caller strips every
line before matching, so the line never starts or ends with whitespace;
under that discipline the greedy `\s*` followed by the non-empty `(.+)$`
succeeds exactly when a non-whitespace tail remains after the marker. -/
def matchNumbered (line : List Char) : Option (List Char) :=
  let rest1 := line.dropWhile isPySpace
  let digits := rest1.takeWhile Char.isDigit
  if digits.isEmpty then none
  else
    match rest1.drop digits.length with
    | [] => none
    | m :: rest3 =>
      if markerChar m then
        let rest4 := rest3.dropWhile isPySpace
        if rest4.isEmpty then none else some rest4
      else none

/-- Quote-pair removal of `_parse_suggestions` lines 170-174: when the item
both starts and ends with the same quote character, drop the first and last
character (Python `suggestion[1:-1]`). -/
def pyStartsEnds (s : List Char) (c : Char) : Bool :=
  match s.head?, s.getLast? with
  | some a, some b => a == c && b == c
  | _, _ => false

/-- Strip one symmetric layer of surrounding quotes, as in the source. -/
def stripSurroundingQuotes (s : List Char) : List Char :=
  if pyStartsEnds s dquote || pyStartsEnds s squote then (s.drop 1).dropLast
  else s

/-- `suggestion.strip("\x22'")`: remove leading and trailing quote
characters of either kind. -/
def stripQuoteEnds (s : List Char) : List Char :=
  ((s.dropWhile isQuoteChar).reverse.dropWhile isQuoteChar).reverse

/-- Loop body of `_parse_suggestions`: strip the line, skip it when empty
or unmatched, else clean the captured item and keep it when longer than
5 characters. -/
def parseLineStep (acc : List String) (line : List Char) : List String :=
  let l := pyStripChars line
  if l.isEmpty then acc
  else
    match matchNumbered l with
    | none => acc
    | some g2 =>
      let s := pyStripChars g2
      let s := stripSurroundingQuotes s
      let s := stripQuoteEnds s
      if !s.isEmpty && decide (s.length > 5) then acc ++ [String.mk s] else acc

/-- `SuggestionGenerator._parse_suggestions`: split the stripped reply into
lines, collect the cleaned ordinal items in order, and keep at most 3. -/
def parse_suggestions (response : String) : List String :=
  ((splitLines (pyStripChars response.data)).foldl parseLineStep []).take 3

/-- `SuggestionGenerator.generate_sync`: skip generation on an empty or
whitespace-only last statement; otherwise invoke the external collaborator
— modelled as an `Except` outcome, `Except.error` standing for any raised
exception (network error, malformed reply object), which the source catches
and converts to `[]` — and parse a successful raw reply. -/
def generate_sync (conversation_context last_statement : String)
    (callOutcome : Except String String) : List String :=
  if last_statement.isEmpty || (pyStrip last_statement).isEmpty then []
  else
    match callOutcome with
    | Except.error _ => []
    | Except.ok raw => parse_suggestions raw

/-- Body of `SalesAssistant._generate_suggestions` (main.py lines 261-281)
once the single-flight gate has been passed: fetch the last prospect
statement (bail out silently when there is none), build the context window,
run the generation collaborator `gen`, and on a non-empty result call
`mark_suggestion_sent` and hand the batch to the hub.  The second component
collects the batches handed to `broadcast_suggestions`. -/
def generate_round (b : ConversationBuffer) (gen : String → String → List String)
    (now : Int) : ConversationBuffer × List (List String) :=
  match get_last_prospect_statement b with
  | none => (b, [])
  | some last_statement =>
    let context := get_context_string b (some 10)
    let suggestions := gen context last_statement
    if suggestions.isEmpty then (b, [])
    else (mark_suggestion_sent b now, [suggestions])

/-- State of the single-flight generation gate of `SalesAssistant`
(`self._generation_lock` plus the number of outstanding executor calls to
`generate_sync`). -/
structure GenState where
  locked : Bool
  inFlight : Nat
deriving DecidableEq, Repr

/-- Entry of `SalesAssistant._generate_suggestions` lines 256-260: when the
lock is held the trigger returns at once, leaving the state untouched (no
call, nothing queued); otherwise the lock is taken and one generation call
is started.  The Boolean reports whether a call was issued.  In the
cooperative single-threaded scheduler the `locked()` test and an
uncontended acquire run without an intervening suspension point, so the
pair is a single atomic step. -/
def tryBeginGeneration (s : GenState) : GenState × Bool :=
  if s.locked then (s, false)
  else ({ locked := true, inFlight := s.inFlight + 1 }, true)

/-- Exit of the `async with self._generation_lock` block: the outstanding
call completes and the lock is released. -/
def endGeneration (s : GenState) : GenState :=
  { locked := false, inFlight := s.inFlight - 1 }

/-- Transitions of the generation gate: a trigger arrives, or the
in-flight call finishes. -/
inductive GenStep : GenState → GenState → Prop
  | trigger (s : GenState) : GenStep s (tryBeginGeneration s).1
  | finish (s : GenState) : s.locked = true → GenStep s (endGeneration s)

/-- Initial gate state: lock free, no outstanding call. -/
def initGenState : GenState := { locked := false, inFlight := 0 }

/-- Gate states reachable from start-up. -/
def GenReachable (s : GenState) : Prop :=
  Relation.ReflTransGen GenStep initGenState s

/-- `WebSocketServer.broadcast` send loop (websocket_server.py lines
214-222): attempt the serialized payload on every client in order,
collecting successful deliveries and failed clients.  `ok c` tells whether
`client.send` succeeds for connection `c`. -/
def broadcastLoop (ok : Nat → Bool) : List Nat → List Nat × List Nat
  | [] => ([], [])
  | c :: rest =>
    let r := broadcastLoop ok rest
    if ok c then (c :: r.1, r.2) else (r.1, c :: r.2)

/-- `WebSocketServer.broadcast`: return unchanged on an empty client set;
otherwise run the send loop and discard every failed client from the live
set in the same call.  Result: (new live set, successful deliveries). -/
def broadcast (clients : List Nat) (ok : Nat → Bool) : List Nat × List Nat :=
  if clients.isEmpty then (clients, [])
  else
    (clients.filter (fun c => decide (c ∉ (broadcastLoop ok clients).2)),
     (broadcastLoop ok clients).1)

/-! ## Theorems -/

/-- Spec-side restatement of the `shouldTrigger()` conditions (claim C1),
written from the specification's words so it can be compared with the
source-side `should_trigger_ai`: the newest history entry exists, no
cooldown is pending, the entry is a final counterpart utterance, and its
trimmed text has at least 10 characters. -/
def shouldTriggerSpec (b : ConversationBuffer) (now : Int) : Prop :=
  match b.utterances.getLast? with
  | none => False
  | some u =>
    (match b.last_suggestion_time with
     | none => True
     | some t => b.suggestion_cooldown ≤ now - t) ∧
    u.speaker = "prospect" ∧ u.is_final = true ∧ 10 ≤ (pyStrip u.text).length

/-- `add` never touches the cooldown bookkeeping or the retention length. -/
theorem add_preserves_fields (b : ConversationBuffer) (u : Utterance) (now : Int) :
    (add b u now).last_suggestion_time = b.last_suggestion_time ∧
    (add b u now).suggestion_cooldown = b.suggestion_cooldown ∧
    (add b u now).max_duration = b.max_duration := by
  unfold add prune_old
  split <;> exact ⟨rfl, rfl, rfl⟩

/-- Ingesting any fragment sequence never touches the cooldown bookkeeping
or the retention length. -/
theorem ingestAll_preserves_fields (fs : List TranscriptFragment) :
    ∀ b : ConversationBuffer,
      (ingestAll b fs).last_suggestion_time = b.last_suggestion_time ∧
      (ingestAll b fs).suggestion_cooldown = b.suggestion_cooldown ∧
      (ingestAll b fs).max_duration = b.max_duration := by
  induction fs with
  | nil => exact fun b => ⟨rfl, rfl, rfl⟩
  | cons f fs ih =>
    intro b
    have hstep := add_preserves_fields b
      { speaker := speakerLabelBuffer f.speaker, text := pyStrip f.text,
        timestamp := f.now, is_final := f.is_final } f.now
    have hrest := ih (add_transcript b f.text f.speaker f.is_final f.now)
    exact ⟨hrest.1.trans hstep.1, hrest.2.1.trans hstep.2.1,
      hrest.2.2.trans hstep.2.2⟩

/-- The cooldown gate is idle exactly when no trigger time is recorded or
the recorded one is at least `suggestion_cooldown` seconds old. -/
theorem cooldown_active_false_iff (b : ConversationBuffer) (now : Int) :
    cooldown_active b now = false ↔
      (match b.last_suggestion_time with
       | none => True
       | some t => b.suggestion_cooldown ≤ now - t) := by
  cases h : b.last_suggestion_time with
  | none => simp [cooldown_active, h]
  | some t => simp [cooldown_active, h, not_lt]

/-- C1: on any buffer whose stored texts are trimmed (as `add_transcript`
guarantees), `should_trigger_ai` returns true exactly under the
specification's four conditions, and the cooldown refusal is independent of
how many fragments were ingested between `mark_suggestion_sent` and the
evaluation. -/
theorem c1_should_trigger_conditions (b : ConversationBuffer)
    (now now0 nowLater : Int) (fs : List TranscriptFragment)
    (htrim : ∀ u ∈ b.utterances, pyStrip u.text = u.text)
    (hcool : nowLater - now0 < b.suggestion_cooldown) :
    (should_trigger_ai b now = true ↔ shouldTriggerSpec b now) ∧
    should_trigger_ai (ingestAll (mark_suggestion_sent b now0) fs) nowLater = false := by
  constructor
  · rcases List.eq_nil_or_concat b.utterances with hnil | ⟨L, u, hcat⟩
    · simp [should_trigger_ai, shouldTriggerSpec, hnil]
    · rw [List.concat_eq_append] at hcat
      have hmem : u ∈ b.utterances := by
        rw [hcat]
        exact List.mem_append_right _ (List.mem_singleton_self u)
      have hulen : (pyStrip u.text).length = u.text.length := by
        rw [htrim u hmem]
      have hlast : b.utterances.getLast? = some u := by
        rw [hcat]
        exact List.getLast?_concat _
      have hne : b.utterances.isEmpty = false := by
        rw [hcat]
        simp
      unfold should_trigger_ai shouldTriggerSpec
      rw [hlast, hne]
      simp only [Bool.false_eq_true, if_false]
      cases hca : cooldown_active b now with
      | true =>
        have hnc : ¬ (match b.last_suggestion_time with
            | none => True
            | some t => b.suggestion_cooldown ≤ now - t) := by
          intro hcon
          have := (cooldown_active_false_iff b now).mpr hcon
          rw [this] at hca
          cases hca
        simp only [if_true]
        constructor
        · intro hfalse
          cases hfalse
        · intro hcon
          exact absurd hcon.1 hnc
      | false =>
        have hcool2 := (cooldown_active_false_iff b now).mp hca
        simp only [Bool.false_eq_true, if_false]
        rw [hulen]
        split_ifs with h1 h2
        · constructor
          · intro hfalse
            cases hfalse
          · rintro ⟨_, hsp, hfin, _⟩
            rcases h1 with h | h
            · exact absurd hsp h
            · rw [hfin] at h
              cases h
        · constructor
          · intro hfalse
            cases hfalse
          · rintro ⟨_, _, _, hlen⟩
            omega
        · push_neg at h1
          constructor
          · intro _
            refine ⟨hcool2, h1.1, ?_, by omega⟩
            have := h1.2
            simpa [Bool.not_eq_false] using this
          · intro _
            rfl
  · have hpres := ingestAll_preserves_fields fs (mark_suggestion_sent b now0)
    have h1 : (ingestAll (mark_suggestion_sent b now0) fs).last_suggestion_time =
        some now0 := hpres.1
    have h2 : (ingestAll (mark_suggestion_sent b now0) fs).suggestion_cooldown =
        b.suggestion_cooldown := hpres.2.1
    have hca : cooldown_active (ingestAll (mark_suggestion_sent b now0) fs) nowLater
        = true := by
      unfold cooldown_active
      rw [h1, h2]
      exact decide_eq_true hcool
    unfold should_trigger_ai
    rw [hca]
    simp

/-- Sample buffer holding one eligible final counterpart utterance. -/
def sampleTriggerBuffer : ConversationBuffer :=
  add_transcript (emptyBuffer 180 5) "That is too expensive for us" 0 true 0

/-- Witness for C1: the sample buffer's texts are trimmed, so the
equivalence holds at it, and a fragment ingested after a trigger at time 2
still leaves `should_trigger_ai` false at time 3, inside the cooldown. -/
theorem c1_should_trigger_conditions_witness :
    (should_trigger_ai sampleTriggerBuffer 0 = true ↔
      shouldTriggerSpec sampleTriggerBuffer 0) ∧
    should_trigger_ai
      (ingestAll (mark_suggestion_sent sampleTriggerBuffer 2)
        [{ text := "hello", speaker := 1, is_final := true, now := 2 }]) 3 = false :=
  c1_should_trigger_conditions sampleTriggerBuffer 0 2 3
    [{ text := "hello", speaker := 1, is_final := true, now := 2 }]
    (by decide) (by decide)

/-- C9: calling `get_context_string` with `last_n = 0` renders all final
utterances exactly as the omitted argument does (Python's `if last_n:`
treats `0` as falsy), so there is no way to request exactly zero
utterances; on a buffer holding one final utterance the result is that
utterance's rendering, not the empty string. -/
theorem c9_context_zero_is_all :
    (∀ b : ConversationBuffer, get_context_string b (some 0) = get_context_string b none) ∧
    get_context_string (add_transcript (emptyBuffer 180 5) "hello there" 0 true 0)
      (some 0) = "Prospect: hello there" :=
  ⟨fun _ => rfl, by decide⟩

/-- C10: both the buffer-side mapping (`add_transcript`) and the
broadcast-side mapping (`_process_transcript`) label diarization speaker 0
as `"prospect"` and every other id as `"salesperson"`; an ingested interim
fragment carries exactly that label. -/
theorem c10_speaker_mapping :
    ∀ s : Nat,
      (speakerLabelBuffer s = "prospect" ↔ s = 0) ∧
      (speakerLabelBuffer s = "salesperson" ↔ s ≠ 0) ∧
      speakerLabelBroadcast s = speakerLabelBuffer s ∧
      ∀ (b : ConversationBuffer) (txt : String) (now : Int),
        (add_transcript b txt s false now).pending_interim =
          some { speaker := speakerLabelBuffer s, text := pyStrip txt,
                 timestamp := now, is_final := false } := by
  intro s
  by_cases hs : s = 0 <;>
    simp [speakerLabelBuffer, speakerLabelBroadcast, hs, add_transcript, add]

/-- C6: `generate_sync` never lets a failure escape — any exception raised
by the external call (modelled as `Except.error`) yields the empty batch,
and an empty last statement short-circuits to the empty batch without
calling the collaborator at all. -/
theorem c6_generate_sync_never_raises :
    ∀ (ctx stmt e raw : String),
      generate_sync ctx stmt (Except.error e) = [] ∧
      generate_sync ctx "" (Except.ok raw) = [] := by
  intro ctx stmt e raw
  refine ⟨?_, rfl⟩
  unfold generate_sync
  split
  · rfl
  · rfl

/-- C3 (failing input): the parser's regex requires the marker character
to follow the digits immediately, so the line `"1 - Offer a pilot"` — a
form the claim (and the source's own comment) says is recognized — is
dropped and the parse is empty, while the dotted form of the claim's
concrete example parses as stated. -/
theorem c3_marker_space_not_matched :
    parse_suggestions "1 - Offer a pilot" = [] ∧
    parse_suggestions "1. Ask about ROI\n2. Offer a pilot\nNotes: ignore this" =
      ["Ask about ROI", "Offer a pilot"] := by
  decide

/-- C5: in a generation round, `mark_suggestion_sent` runs exactly when the
resulting batch has at least one item: a non-empty batch updates
`last_suggestion_time` and is handed to the hub, while an empty round (no
prospect statement, or an empty generation result) hands nothing over and
leaves `last_suggestion_time` untouched. -/
theorem c5_mark_iff_nonempty_batch :
    ∀ (b : ConversationBuffer) (gen : String → String → List String) (now : Int),
      ((generate_round b gen now).2 = [] ∧
        (generate_round b gen now).1.last_suggestion_time = b.last_suggestion_time) ∨
      (∃ items, (generate_round b gen now).2 = [items] ∧ items ≠ [] ∧
        (generate_round b gen now).1 = mark_suggestion_sent b now) := by
  intro b gen now
  cases hstmt : get_last_prospect_statement b with
  | none =>
    left
    constructor <;> simp [generate_round, hstmt]
  | some stmt =>
    cases hempty : (gen (get_context_string b (some 10)) stmt).isEmpty with
    | true =>
      left
      constructor <;> simp [generate_round, hstmt, hempty]
    | false =>
      right
      refine ⟨gen (get_context_string b (some 10)) stmt,
        by simp [generate_round, hstmt, hempty], ?_,
        by simp [generate_round, hstmt, hempty]⟩
      intro hnil
      rw [hnil] at hempty
      simp at hempty

/-- Send loop of `broadcast`: deliveries are the clients whose send
succeeds, failures the rest, each in iteration order. -/
theorem broadcastLoop_spec (ok : Nat → Bool) :
    ∀ l : List Nat,
      broadcastLoop ok l = (l.filter ok, l.filter (fun c => !(ok c))) := by
  intro l
  induction l with
  | nil => rfl
  | cons c rest ih =>
    unfold broadcastLoop
    rw [ih]
    cases hok : ok c <;> simp [List.filter, hok]

/-- C7: a broadcast attempts the send on every live connection, delivering
to exactly those whose send succeeds, and within the same call removes from
the live set exactly the connections whose send failed; in particular with
3 connections of which one throws, 2 deliveries succeed and the failing
connection alone is removed. -/
theorem c7_broadcast_prunes_failed :
    ∀ (clients : List Nat) (ok : Nat → Bool),
      (broadcast clients ok).2 = clients.filter ok ∧
      (broadcast clients ok).1 = clients.filter ok ∧
      (broadcast [1, 2, 3] (fun c => !(c == 2))).2.length = 2 ∧
      (broadcast [1, 2, 3] (fun c => !(c == 2))).1 = [1, 3] := by
  intro clients ok
  have hfull : broadcast clients ok = (clients.filter ok, clients.filter ok) := by
    cases hc : clients.isEmpty with
    | true =>
      have hnil : clients = [] := by simpa using hc
      subst hnil
      simp [broadcast]
    | false =>
      unfold broadcast
      rw [if_neg (by simp [hc]), broadcastLoop_spec]
      refine Prod.ext ?_ rfl
      simp only
      apply List.filter_congr
      intro c hcmem
      cases hok : ok c <;> simp [List.mem_filter, hcmem, hok]
  exact ⟨by rw [hfull], by rw [hfull], by decide, by decide⟩

/-- Reachable gate states carry exactly one outstanding call when (and only
when) the lock is held. -/
theorem genReachable_inFlight (s : GenState) (h : GenReachable s) :
    s.inFlight = (if s.locked then 1 else 0) := by
  induction h with
  | refl => rfl
  | @tail b c hab hstep ih =>
    cases hstep with
    | trigger =>
      cases hl : b.locked with
      | true => simpa [tryBeginGeneration, hl] using ih
      | false =>
        rw [hl] at ih
        simp only [if_false, Bool.false_eq_true] at ih
        simp [tryBeginGeneration, hl, ih]
    | finish hl =>
      rw [hl] at ih
      simp only [if_true] at ih
      simp [endGeneration, ih]

/-- C2: in every reachable gate state at most one generation call is
outstanding, and a trigger arriving while the lock is held issues no second
call and leaves the state exactly as it was — dropped, not queued. -/
theorem c2_single_flight (s : GenState) (h : GenReachable s) :
    s.inFlight ≤ 1 ∧
    (s.locked = false ∨ tryBeginGeneration s = (s, false)) := by
  have hinv := genReachable_inFlight s h
  constructor
  · rw [hinv]
    split <;> omega
  · cases hl : s.locked with
    | false => exact Or.inl rfl
    | true => exact Or.inr (by simp [tryBeginGeneration, hl])

/-- Witness for C2 at the reachable state reached by one trigger from
start-up (lock held, one call in flight). -/
theorem c2_single_flight_witness :
    (tryBeginGeneration initGenState).1.inFlight ≤ 1 ∧
    ((tryBeginGeneration initGenState).1.locked = false ∨
      tryBeginGeneration (tryBeginGeneration initGenState).1 =
        ((tryBeginGeneration initGenState).1, false)) :=
  c2_single_flight _ (Relation.ReflTransGen.single (GenStep.trigger initGenState))

/-- History is sorted by creation timestamp. -/
def SortedBuffer (b : ConversationBuffer) : Prop :=
  List.Pairwise (fun a c => a.timestamp ≤ c.timestamp) b.utterances

/-- Every history entry was created no later than `t`. -/
def TimeBounded (b : ConversationBuffer) (t : Int) : Prop :=
  ∀ u ∈ b.utterances, u.timestamp ≤ t

/-- Front pruning only discards entries. -/
theorem mem_pruneFront {cutoff : Int} :
    ∀ {l : List Utterance} {v : Utterance}, v ∈ pruneFront cutoff l → v ∈ l := by
  intro l
  induction l with
  | nil => intro v hv; simp [pruneFront] at hv
  | cons u rest ih =>
    intro v hv
    unfold pruneFront at hv
    by_cases h : u.timestamp < cutoff
    · rw [if_pos h] at hv
      exact List.mem_cons_of_mem _ (ih hv)
    · rw [if_neg h] at hv
      exact hv

/-- Front pruning preserves sortedness. -/
theorem pairwise_pruneFront {cutoff : Int} :
    ∀ {l : List Utterance},
      List.Pairwise (fun a c => a.timestamp ≤ c.timestamp) l →
      List.Pairwise (fun a c => a.timestamp ≤ c.timestamp) (pruneFront cutoff l) := by
  intro l
  induction l with
  | nil => intro h; exact h
  | cons u rest ih =>
    intro h
    unfold pruneFront
    by_cases hlt : u.timestamp < cutoff
    · rw [if_pos hlt]
      exact ih (List.Pairwise.of_cons h)
    · rw [if_neg hlt]
      exact h

/-- On a sorted history, front pruning leaves only entries at or after the
cutoff: the loop stops at the first young-enough entry and sortedness
carries the bound to the rest. -/
theorem pruneFront_bound {cutoff : Int} :
    ∀ {l : List Utterance},
      List.Pairwise (fun a c => a.timestamp ≤ c.timestamp) l →
      ∀ v ∈ pruneFront cutoff l, cutoff ≤ v.timestamp := by
  intro l
  induction l with
  | nil => intro _ v hv; simp [pruneFront] at hv
  | cons u rest ih =>
    intro h v hv
    unfold pruneFront at hv
    by_cases hlt : u.timestamp < cutoff
    · rw [if_pos hlt] at hv
      exact ih (List.Pairwise.of_cons h) v hv
    · rw [if_neg hlt] at hv
      rcases List.mem_cons.mp hv with hv | hv
      · subst hv
        omega
      · exact le_trans (by omega) ((List.pairwise_cons.mp h).1 v hv)

/-- One ingest step: starting from a sorted history bounded by an earlier
instant, `add_transcript` keeps the history sorted and bounded by `now`,
and after a final ingest every surviving entry is within the retention
window of `now`. -/
theorem add_transcript_step (b : ConversationBuffer) (txt : String) (spk : Nat)
    (fin : Bool) (tPrev now : Int)
    (hs : SortedBuffer b) (hb : TimeBounded b tPrev) (hle : tPrev ≤ now) :
    SortedBuffer (add_transcript b txt spk fin now) ∧
    TimeBounded (add_transcript b txt spk fin now) now ∧
    (fin = true →
      ∀ u ∈ (add_transcript b txt spk fin now).utterances,
        now - b.max_duration ≤ u.timestamp) := by
  unfold add_transcript add prune_old
  cases fin with
  | false =>
    simp only [Bool.false_eq_true, if_false]
    refine ⟨hs, fun u hu => le_trans (hb u hu) hle, ?_⟩
    intro h
    cases h
  | true =>
    simp only [if_true]
    have hsorted : List.Pairwise (fun a c : Utterance => a.timestamp ≤ c.timestamp)
        (b.utterances ++
          [(⟨speakerLabelBuffer spk, pyStrip txt, now, true⟩ : Utterance)]) := by
      rw [List.pairwise_append]
      refine ⟨hs, List.pairwise_singleton _ _, ?_⟩
      intro a ha c hc
      rw [List.mem_singleton.mp hc]
      exact le_trans (hb a ha) hle
    refine ⟨pairwise_pruneFront hsorted, ?_, ?_⟩
    · intro v hv
      rcases List.mem_append.mp (mem_pruneFront hv) with hv | hv
      · exact le_trans (hb v hv) hle
      · rw [List.mem_singleton.mp hv]
    · intro _ v hv
      exact pruneFront_bound hsorted v hv

/-- Ingesting a chronologically ordered sequence that ends with fragment
`f` keeps the history sorted, and when `f` is final every entry is inside
the retention window of `f.now`. -/
theorem ingestAll_concat_inv :
    ∀ (p : List TranscriptFragment) (f : TranscriptFragment)
      (b : ConversationBuffer) (t : Int),
      SortedBuffer b → TimeBounded b t →
      List.Chain (fun x y => x ≤ y) t ((p ++ [f]).map (fun g => g.now)) →
      SortedBuffer (ingestAll b (p ++ [f])) ∧
      (f.is_final = true →
        ∀ u ∈ (ingestAll b (p ++ [f])).utterances,
          f.now - b.max_duration ≤ u.timestamp) := by
  intro p
  induction p with
  | nil =>
    intro f b t hs hb hchain
    simp only [List.nil_append, List.map_cons, List.map_nil, List.chain_cons] at hchain
    have hstep := add_transcript_step b f.text f.speaker f.is_final t f.now hs hb hchain.1
    exact ⟨hstep.1, hstep.2.2⟩
  | cons g q ih =>
    intro f b t hs hb hchain
    simp only [List.cons_append, List.map_cons, List.chain_cons] at hchain
    have hstep := add_transcript_step b g.text g.speaker g.is_final t g.now hs hb hchain.1
    have hrec := ih f (add_transcript b g.text g.speaker g.is_final g.now) g.now
      hstep.1 hstep.2.1 (by simpa using hchain.2)
    have hmd : (add_transcript b g.text g.speaker g.is_final g.now).max_duration =
        b.max_duration :=
      (add_preserves_fields b _ g.now).2.2
    refine ⟨hrec.1, ?_⟩
    rw [hmd] at hrec
    exact hrec.2

/-- C4 counterexample: ingesting a final counterpart utterance at time 0
and then an interim fragment at time 200 leaves the time-0 entry in the
history even though it is older than `now - retention = 200 - 180`,
because interim ingests do not prune — refuting the claim that the
retention bound holds immediately after every ingest call. -/
theorem c4_retention_counterexample :
    ∃ u ∈ (add_transcript
        (add_transcript (emptyBuffer 180 5) "That is too expensive today" 0 true 0)
        "um" 0 false 200).utterances,
      u.timestamp < 200 - 180 := by
  decide

/-- C4 amended: for every chronologically ordered fragment sequence the
history is sorted by creation timestamp after each ingest, and after each
final-fragment ingest every entry is within the retention window; an
interim-fragment ingest leaves the history untouched (so the retention
bound is only guaranteed relative to the most recent final ingest). -/
theorem c4_sorted_retention_amended (p : List TranscriptFragment)
    (f : TranscriptFragment) (t0 : Int)
    (hchron : List.Chain (fun x y => x ≤ y) t0 ((p ++ [f]).map (fun g => g.now))) :
    SortedBuffer (ingestAll (emptyBuffer 180 5) (p ++ [f])) ∧
    (f.is_final = true →
      ∀ u ∈ (ingestAll (emptyBuffer 180 5) (p ++ [f])).utterances,
        f.now - 180 ≤ u.timestamp) ∧
    (∀ (b : ConversationBuffer) (txt : String) (spk : Nat) (now : Int),
      (add_transcript b txt spk false now).utterances = b.utterances) := by
  have h := ingestAll_concat_inv p f (emptyBuffer 180 5) t0
    (by simp [SortedBuffer, emptyBuffer])
    (by intro u hu; simp [emptyBuffer] at hu)
    hchron
  refine ⟨h.1, by simpa using h.2, ?_⟩
  intro b txt spk now
  simp [add_transcript, add]

/-- Witness for C4 amended: a single final fragment at time 0 yields a
sorted singleton history whose entry is inside the retention window. -/
theorem c4_sorted_retention_amended_witness :
    SortedBuffer (ingestAll (emptyBuffer 180 5)
      ([] ++ [{ text := "That is too expensive today", speaker := 0,
                is_final := true, now := 0 }])) ∧
    ((⟨"That is too expensive today", 0, true, 0⟩ : TranscriptFragment).is_final = true →
      ∀ u ∈ (ingestAll (emptyBuffer 180 5)
          ([] ++ [{ text := "That is too expensive today", speaker := 0,
                    is_final := true, now := 0 }])).utterances,
        (⟨"That is too expensive today", 0, true, 0⟩ : TranscriptFragment).now - 180 ≤
          u.timestamp) ∧
    (∀ (b : ConversationBuffer) (txt : String) (spk : Nat) (now : Int),
      (add_transcript b txt spk false now).utterances = b.utterances) :=
  c4_sorted_retention_amended []
    { text := "That is too expensive today", speaker := 0, is_final := true, now := 0 }
    0 (List.Chain.cons (le_refl 0) List.Chain.nil)

/-- C8 counterexample: after a final counterpart ingest at time 0 with no
trigger recorded, ingesting an interim fragment and then evaluating
`should_trigger_ai` — a time other than immediately after a final
counterpart ingest — returns `true`, not `false`: the check ignores the
pending interim and still sees the eligible final entry. -/
theorem c8_trigger_after_interim_counterexample :
    should_trigger_ai
      (add_transcript
        (add_transcript (emptyBuffer 180 5) "That is too expensive for us" 0 true 0)
        "well" 0 false 1) 1 = true := by
  decide

/-- C8 amended: evaluating `should_trigger_ai` at any time is safe (it is
a total function), and an interim ingest never changes its value — so it
returns `false` after an interim ingest only when it was already `false`;
within the cooldown of a recorded trigger it returns `false`, before and
after an interim ingest alike (covering the already-triggered final
counterpart ingest). -/
theorem c8_safe_evaluation_amended (b : ConversationBuffer)
    (now nowEval t : Int) (txt : String) (spk : Nat)
    (hset : b.last_suggestion_time = some t)
    (hlt : nowEval - t < b.suggestion_cooldown) :
    should_trigger_ai (add_transcript b txt spk false now) nowEval =
      should_trigger_ai b nowEval ∧
    should_trigger_ai b nowEval = false ∧
    should_trigger_ai (add_transcript b txt spk false now) nowEval = false := by
  have hinterim : should_trigger_ai (add_transcript b txt spk false now) nowEval =
      should_trigger_ai b nowEval := rfl
  have hca : cooldown_active b nowEval = true := by
    unfold cooldown_active
    rw [hset]
    exact decide_eq_true hlt
  have hfalse : should_trigger_ai b nowEval = false := by
    unfold should_trigger_ai
    rw [hca]
    simp
  exact ⟨hinterim, hfalse, hinterim.trans hfalse⟩

/-- Witness for C8 amended: at the sample buffer with a trigger recorded
at time 0, an interim ingested at time 1 leaves the evaluation unchanged
and false within the cooldown. -/
theorem c8_safe_evaluation_amended_witness :
    should_trigger_ai
      (add_transcript (mark_suggestion_sent sampleTriggerBuffer 0) "well" 0 false 1) 1 =
      should_trigger_ai (mark_suggestion_sent sampleTriggerBuffer 0) 1 ∧
    should_trigger_ai (mark_suggestion_sent sampleTriggerBuffer 0) 1 = false ∧
    should_trigger_ai
      (add_transcript (mark_suggestion_sent sampleTriggerBuffer 0) "well" 0 false 1) 1 =
      false :=
  c8_safe_evaluation_amended (mark_suggestion_sent sampleTriggerBuffer 0)
    1 1 0 "well" 0 rfl (by decide)

end RTSA
